import Mathlib

/-
  Shallow embedding of the Kayak Wind Advisor rating core (src/app.py).

  Numeric wind observations are modelled as rationals; a "not-a-number"
  sample value is modelled as `none : Option ℚ` (the code detects NaN via
  `v != v` and skips such samples).  the Python `round` function (rounding
  half to even) is modelled by `pyRound`.  Places where the Python code
  could raise (the `rank_map[...]` dictionary lookup in the worst-hour
  loop, the `times[i]` indexing in the worst-window loop) are modelled in
  the `Except String` monad, so that "raises no exception" is a provable
  statement.
-/

namespace KayakAdvisor

/-- Python `round` with no digits: round half to even, returning an integer. -/
def pyRound (q : ℚ) : ℤ :=
  let f := ⌊q⌋
  let frac := q - (f : ℚ)
  if frac < 1/2 then f
  else if 1/2 < frac then f + 1
  else if f % 2 = 0 then f else f + 1

/-- Embedding of `compute_status` (src/app.py lines 236-254): base tiers from fixed
thresholds, then each active modifier bumps one step, capped at DO NOT GO. -/
def compute_status (sustained_mph gust_mph : ℚ) (offshore big_water : Bool) : String :=
  let status : String :=
    if sustained_mph ≥ 16 ∨ gust_mph ≥ 23 then "DO NOT GO"
    else if sustained_mph ≥ 11 ∨ gust_mph ≥ 16 then "CAUTION"
    else "GO"
  if status ≠ "DO NOT GO" then
    let status1 := if offshore then (if status = "GO" then "CAUTION" else "DO NOT GO") else status
    if big_water then (if status1 = "GO" then "CAUTION" else "DO NOT GO") else status1
  else status

/-- The `rank_map` dictionary of the worst-hour loop (src/app.py line 410);
`none` models a `KeyError` on lookup of an unknown status string. -/
def rank_map (st : String) : Option ℕ :=
  if st = "GO" then some 0
  else if st = "CAUTION" then some 1
  else if st = "DO NOT GO" then some 2
  else none

/-- Tier ordinal of a status string (GO = 0 < CAUTION = 1 < DO NOT GO = 2). -/
def statusOrd (st : String) : ℕ := (rank_map st).getD 0

/-- The score computed in the worst-hour loop (src/app.py lines 425-430):
`int(round(4*s + 2*max(0, g-s)))`, then `+= 10` if offshore, `+= 8` if big_water. -/
def hourScore (s g : ℚ) (offshore big_water : Bool) : ℤ :=
  let gustiness := max 0 (g - s)
  let score := pyRound (4 * s + 2 * gustiness)
  let score := if offshore then score + 10 else score
  if big_water then score + 8 else score

/-- The scoring formula as the spec words it:
`round(4 * sustained + 2 * max(0, gust - sustained))` plus a fixed bonus of
+10 for offshore and +8 for big_water. -/
def riskScoreSpec (s g : ℚ) (offshore big_water : Bool) : ℤ :=
  pyRound (4 * s + 2 * max 0 (g - s))
    + (if offshore then 10 else 0) + (if big_water then 8 else 0)

/-- Closed form of `compute_status`, by case analysis on the two threshold
conditions and the two modifier flags. -/
theorem compute_status_cases (s g : ℚ) (o b : Bool) :
    compute_status s g o b =
      if s ≥ 16 ∨ g ≥ 23 then "DO NOT GO"
      else if s ≥ 11 ∨ g ≥ 16 then (if o || b then "DO NOT GO" else "CAUTION")
      else if o && b then "DO NOT GO"
      else if o || b then "CAUTION"
      else "GO" := by
  by_cases h1 : s ≥ 16 ∨ g ≥ 23
  · cases o <;> cases b <;> simp [compute_status, h1]
  · by_cases h2 : s ≥ 11 ∨ g ≥ 16
    · cases o <;> cases b <;> simp [compute_status, h1, h2]
    · cases o <;> cases b <;> simp [compute_status, h1, h2]

/-- Numeric closed form of the classifier tier ordinal: the base tier from
the thresholds plus one step per active modifier, capped at DO NOT GO. -/
theorem statusOrd_compute_status (s g : ℚ) (o b : Bool) :
    statusOrd (compute_status s g o b) =
      min 2 ((if s ≥ 16 ∨ g ≥ 23 then 2 else if s ≥ 11 ∨ g ≥ 16 then 1 else 0)
        + (if o then 1 else 0) + (if b then 1 else 0)) := by
  rw [compute_status_cases]
  by_cases h1 : s ≥ 16 ∨ g ≥ 23
  · cases o <;> cases b <;> simp [h1, statusOrd, rank_map]
  · by_cases h2 : s ≥ 11 ∨ g ≥ 16
    · cases o <;> cases b <;> simp [h1, h2, statusOrd, rank_map]
    · cases o <;> cases b <;> simp [h1, h2, statusOrd, rank_map]

/-- Monotone threshold implications used for tier monotonicity. -/
theorem threshold_mono {s s2 g g2 : ℚ} (hs : s ≤ s2) (hg : g ≤ g2) :
    ((s ≥ 16 ∨ g ≥ 23) → (s2 ≥ 16 ∨ g2 ≥ 23)) ∧
      ((s ≥ 11 ∨ g ≥ 16) → (s2 ≥ 11 ∨ g2 ≥ 16)) := by
  constructor
  · rintro (h | h)
    · exact Or.inl (le_trans h hs)
    · exact Or.inr (le_trans h hg)
  · rintro (h | h)
    · exact Or.inl (le_trans h hs)
    · exact Or.inr (le_trans h hg)

/-- C1 (counterexample): the claim asserts `classify(10.1, 0)` with no
modifiers returns CAUTION; the code returns GO, since its CAUTION branch
requires `sustained >= 11` (or `gust >= 16`). -/
theorem C1_boundary_counterexample :
    compute_status (101/10) 0 false false = "GO" ∧
      compute_status (101/10) 0 false false ≠ "CAUTION" := by
  constructor <;> norm_num [compute_status] <;> decide

/-- C1 (amended): with no modifiers, classify(10.0,0) = GO, classify(10.1,0)
= GO (the CAUTION band starts at sustained >= 11 or gust >= 16, so any
sustained below 11 with calm gusts stays GO), classify(11,0) = CAUTION,
classify(16,0) = DO_NOT_GO, classify(0,23) = DO_NOT_GO. -/
theorem C1_tier_boundaries :
    compute_status 10 0 false false = "GO" ∧
      compute_status (101/10) 0 false false = "GO" ∧
      compute_status 11 0 false false = "CAUTION" ∧
      compute_status 16 0 false false = "DO NOT GO" ∧
      compute_status 0 23 false false = "DO NOT GO" := by
  refine ⟨?_, ?_, ?_, ?_, ?_⟩ <;> norm_num [compute_status]

/-- C2 (counterexample): at sustained = 0, gust = 0 the classifier returns GO
with no modifiers and CAUTION with exactly one active modifier, yet with both
modifiers active it returns DO NOT GO, not CAUTION: each active modifier
applies its own one-step bump, so two active modifiers escalate two steps. -/
theorem C2_single_bump_counterexample :
    compute_status 0 0 false false = "GO" ∧
      compute_status 0 0 true false = "CAUTION" ∧
      compute_status 0 0 false true = "CAUTION" ∧
      compute_status 0 0 true true ≠ "CAUTION" ∧
      compute_status 0 0 true true = "DO NOT GO" := by
  refine ⟨?_, ?_, ?_, ?_, ?_⟩ <;> decide

/-- C2 (amended): each active modifier escalates the tier by one step
(capped at DO NOT GO), and the bumps compound: an input that classifies GO
with no modifiers classifies CAUTION under either single modifier and
DO NOT GO when both modifiers are active. -/
theorem C2_modifier_bumps (s g : ℚ) (h : compute_status s g false false = "GO") :
    compute_status s g true false = "CAUTION" ∧
      compute_status s g false true = "CAUTION" ∧
      compute_status s g true true = "DO NOT GO" := by
  rw [compute_status_cases] at h
  by_cases h1 : s ≥ 16 ∨ g ≥ 23
  · simp [h1] at h
  · by_cases h2 : s ≥ 11 ∨ g ≥ 16
    · simp [h1, h2] at h
    · refine ⟨?_, ?_, ?_⟩ <;> rw [compute_status_cases] <;> simp [h1, h2]

/-- C2 (witness): the amended statement at sustained = 0, gust = 0. -/
theorem C2_modifier_bumps_witness :
    compute_status 0 0 true false = "CAUTION" ∧
      compute_status 0 0 false true = "CAUTION" ∧
      compute_status 0 0 true true = "DO NOT GO" :=
  C2_modifier_bumps 0 0 (by decide)

/-- C7: for non-negative inputs and any fixed modifier flags, the tier
ordinal (GO = 0 < CAUTION = 1 < DO NOT GO = 2) is monotone non-decreasing
when either wind input increases and the other is held fixed (proved jointly
in both inputs). -/
theorem C7_classify_monotone (s s2 g g2 : ℚ) (o b : Bool)
    (hs0 : 0 ≤ s) (hg0 : 0 ≤ g) (hs : s ≤ s2) (hg : g ≤ g2) :
    statusOrd (compute_status s g o b) ≤ statusOrd (compute_status s2 g2 o b) := by
  obtain ⟨i1, i2⟩ := threshold_mono hs hg
  rw [statusOrd_compute_status, statusOrd_compute_status]
  have hbase : (if s ≥ 16 ∨ g ≥ 23 then 2 else if s ≥ 11 ∨ g ≥ 16 then (1:ℕ) else 0)
      ≤ (if s2 ≥ 16 ∨ g2 ≥ 23 then 2 else if s2 ≥ 11 ∨ g2 ≥ 16 then 1 else 0) := by
    by_cases h1 : s ≥ 16 ∨ g ≥ 23
    · simp [h1, i1 h1]
    · by_cases h2 : s ≥ 11 ∨ g ≥ 16
      · by_cases h1b : s2 ≥ 16 ∨ g2 ≥ 23 <;> simp [h1, h2, h1b, i2 h2]
      · simp only [h1, if_false, h2]
        exact Nat.zero_le _
  exact min_le_min (le_refl 2)
    (Nat.add_le_add_right (Nat.add_le_add_right hbase _) _)

/-- C7 (witness): monotonicity at s = 5 <= 12, g = 0. -/
theorem C7_classify_monotone_witness :
    statusOrd (compute_status 5 0 false false) ≤
      statusOrd (compute_status 12 0 false false) :=
  C7_classify_monotone 5 12 0 0 false false (by decide) (by decide) (by decide)
    (by decide)

/-- C8: the score computed by the worst-hour loop equals the formula of the spec:
round(4 * sustained + 2 * max(0, gust - sustained)), plus +10 when offshore
is active and +8 when big_water is active. -/
theorem C8_score_formula (s g : ℚ) (o b : Bool) :
    hourScore s g o b = riskScoreSpec s g o b := by
  cases o <;> cases b <;> simp [hourScore, riskScoreSpec]

/-- C10: with both the offshore and big_water modifiers active, every input
classifies DO NOT GO: a base GO is bumped to CAUTION by the first modifier
and to DO NOT GO by the second, and any higher base tier reaches DO NOT GO
at least as fast. -/
theorem C10_both_modifiers_do_not_go (s g : ℚ) :
    compute_status s g true true = "DO NOT GO" := by
  rw [compute_status_cases]
  split_ifs <;> simp_all

/-
  Worst-hour selection (src/app.py lines 409-438).  The loop iterates the
  hourly observations in time order; an observation whose sustained wind,
  gust or direction is NaN is skipped.  The `rank_map[...]` lookups are in
  `Except String` (`none` from `rank_map` would be a Python `KeyError`).
-/

/-- One hourly observation: timestamp, sustained wind, gust, direction;
`none` models a NaN field. -/
structure Obs where
  time : String
  s : Option ℚ
  g : Option ℚ
  d : Option ℚ
  deriving Repr, DecidableEq

/-- State of the worst-hour selection loop: `worst_status`, `worst_i`,
`worst_score`, `worst_reason`. -/
structure SelSt where
  status : String
  idx : ℕ
  score : ℤ
  reason : String
  deriving Repr, DecidableEq

/-- The reason string built for the worst hour (src/app.py line 438). -/
def mkReason (s g : ℚ) : String :=
  "Sustained " ++ toString (pyRound s) ++ " mph, gusts " ++ toString (pyRound g) ++ " mph."

/-- Initial loop state: GO, index 0, score -1, empty reason. -/
def selInit : SelSt := ⟨"GO", 0, -1, ""⟩

/-- An observation participates in ranking iff no field is NaN
(`s != s or g != g or d != d` skips the sample). -/
def obsValid (o : Obs) : Bool := o.s.isSome && o.g.isSome && o.d.isSome

/-- One iteration of the worst-hour loop. -/
def worstHourStep (off bw : Bool) (i : ℕ) (o : Obs) (st : SelSt) : Except String SelSt :=
  match o.s, o.g, o.d with
  | some s, some g, some _ =>
    let st_i := compute_status s g off bw
    let score := hourScore s g off bw
    match rank_map st_i, rank_map st.status with
    | some rNew, some rCur =>
      if rNew > rCur ∨ (rNew = rCur ∧ score > st.score) then
        Except.ok ⟨st_i, i, score, mkReason s g⟩
      else Except.ok st
    | _, _ => Except.error "KeyError"
  | _, _, _ => Except.ok st

/-- The worst-hour loop over the remaining observations, threading the
current index and state. -/
def worstHourGo (off bw : Bool) : List Obs → ℕ → SelSt → Except String SelSt
  | [], _, st => Except.ok st
  | o :: rest, i, st =>
    match worstHourStep off bw i o st with
    | Except.ok st2 => worstHourGo off bw rest (i + 1) st2
    | Except.error e => Except.error e

/-- Worst-hour selection over the observations of a day (src/app.py 409-438). -/
def select_worst_hour (off bw : Bool) (obs : List Obs) : Except String SelSt :=
  worstHourGo off bw obs 0 selInit

/-- The candidate state built from a valid observation at index `i`. -/
def mkCand (off bw : Bool) (i : ℕ) (o : Obs) : SelSt :=
  ⟨compute_status (o.s.getD 0) (o.g.getD 0) off bw, i,
    hourScore (o.s.getD 0) (o.g.getD 0) off bw,
    mkReason (o.s.getD 0) (o.g.getD 0)⟩

/-- Pure model of one loop iteration (no `Except`); proved equivalent to
`worstHourStep` below. -/
def hourStepP (off bw : Bool) (i : ℕ) (o : Obs) (st : SelSt) : SelSt :=
  match o.s, o.g, o.d with
  | some s, some g, some _ =>
    if statusOrd (compute_status s g off bw) > statusOrd st.status ∨
        (statusOrd (compute_status s g off bw) = statusOrd st.status ∧
          hourScore s g off bw > st.score) then
      ⟨compute_status s g off bw, i, hourScore s g off bw, mkReason s g⟩
    else st
  | _, _, _ => st

/-- Pure model of the worst-hour loop. -/
def worstHourGoP (off bw : Bool) : List Obs → ℕ → SelSt → SelSt
  | [], _, st => st
  | o :: rest, i, st => worstHourGoP off bw rest (i + 1) (hourStepP off bw i o st)

/-- The ranking key of the worst-hour loop: tier ordinal first, score second. -/
def stKey (st : SelSt) : ℕ × ℤ := (statusOrd st.status, st.score)

/-- The ranking key of an observation. -/
def obsKey (off bw : Bool) (o : Obs) : ℕ × ℤ :=
  (statusOrd (compute_status (o.s.getD 0) (o.g.getD 0) off bw),
    hourScore (o.s.getD 0) (o.g.getD 0) off bw)

/-- Strict lexicographic order on ranking keys: higher tier ordinal wins,
the score breaks ties only within an equal tier. -/
def keyLt (a b : ℕ × ℤ) : Prop := a.1 < b.1 ∨ (a.1 = b.1 ∧ a.2 < b.2)

/-- Reflexive closure of `keyLt`. -/
def keyLe (a b : ℕ × ℤ) : Prop := keyLt a b ∨ a = b

instance (a b : ℕ × ℤ) : Decidable (keyLt a b) := by
  unfold keyLt
  infer_instance

instance (a b : ℕ × ℤ) : Decidable (keyLe a b) := by
  unfold keyLe
  infer_instance

theorem keyLt_trans {a b c : ℕ × ℤ} (h1 : keyLt a b) (h2 : keyLt b c) : keyLt a c := by
  rcases h1 with h1 | ⟨h1, h1b⟩ <;> rcases h2 with h2 | ⟨h2, h2b⟩ <;>
    unfold keyLt <;> omega

theorem keyLe_keyLt_trans {a b c : ℕ × ℤ} (h1 : keyLe a b) (h2 : keyLt b c) :
    keyLt a c := by
  rcases h1 with h1 | rfl
  · exact keyLt_trans h1 h2
  · exact h2

theorem keyLt_keyLe_trans {a b c : ℕ × ℤ} (h1 : keyLt a b) (h2 : keyLe b c) :
    keyLt a c := by
  rcases h2 with h2 | rfl
  · exact keyLt_trans h1 h2
  · exact h1

theorem keyLe_trans {a b c : ℕ × ℤ} (h1 : keyLe a b) (h2 : keyLe b c) : keyLe a c := by
  rcases h1 with h1 | rfl
  · exact Or.inl (keyLt_keyLe_trans h1 h2)
  · exact h2

theorem keyLe_of_not_keyLt {a b : ℕ × ℤ} (h : ¬ keyLt a b) : keyLe b a := by
  unfold keyLt at h
  unfold keyLe keyLt
  rcases b with ⟨b1, b2⟩
  rcases a with ⟨a1, a2⟩
  simp only [Prod.mk.injEq]
  omega

/-- The classifier only ever returns one of the three known status
strings, so the `rank_map` lookup on it cannot fail. -/
theorem rank_map_compute_status (s g : ℚ) (o b : Bool) :
    rank_map (compute_status s g o b) = some (statusOrd (compute_status s g o b)) := by
  rw [compute_status_cases]
  by_cases h1 : s ≥ 16 ∨ g ≥ 23
  · simp [h1, rank_map, statusOrd]
  · by_cases h2 : s ≥ 11 ∨ g ≥ 16 <;>
      cases o <;> cases b <;> simp [h1, h2, rank_map, statusOrd]

/-- A worst-hour step never raises while the running status is in the rank
map, and agrees with the pure step. -/
theorem worstHourStep_ok (off bw : Bool) (i : ℕ) (o : Obs) (st : SelSt)
    (h : rank_map st.status = some (statusOrd st.status)) :
    worstHourStep off bw i o st = Except.ok (hourStepP off bw i o st) := by
  cases hs : o.s <;> cases hg : o.g <;> cases hd : o.d <;>
    simp [worstHourStep, hourStepP, hs, hg, hd, rank_map_compute_status, h] <;>
    split_ifs <;> rfl

/-- The pure step keeps the running status inside the rank map. -/
theorem dom_hourStepP (off bw : Bool) (i : ℕ) (o : Obs) (st : SelSt)
    (h : rank_map st.status = some (statusOrd st.status)) :
    rank_map (hourStepP off bw i o st).status =
      some (statusOrd (hourStepP off bw i o st).status) := by
  cases hs : o.s <;> cases hg : o.g <;> cases hd : o.d <;>
    simp [hourStepP, hs, hg, hd, h] <;>
    split_ifs <;> simp [rank_map_compute_status, h]

/-- The loop never raises: it equals the pure loop wrapped in `ok`. -/
theorem worstHourGo_ok (off bw : Bool) :
    ∀ (l : List Obs) (i : ℕ) (st : SelSt),
      rank_map st.status = some (statusOrd st.status) →
      worstHourGo off bw l i st = Except.ok (worstHourGoP off bw l i st)
  | [], _, _, _ => rfl
  | o :: rest, i, st, h => by
    rw [worstHourGo, worstHourStep_ok off bw i o st h, worstHourGoP]
    exact worstHourGo_ok off bw rest (i + 1) _ (dom_hourStepP off bw i o st h)

/-- Worst-hour selection never raises. -/
theorem select_worst_hour_ok (off bw : Bool) (obs : List Obs) :
    select_worst_hour off bw obs = Except.ok (worstHourGoP off bw obs 0 selInit) :=
  worstHourGo_ok off bw obs 0 selInit rfl

/-- The observation used when an index is out of range; it is invalid, so it
never participates in ranking. -/
def defaultObs : Obs := ⟨"", none, none, none⟩

/-- The observation at index `j` (out-of-range yields the invalid default). -/
def obsAt (obs : List Obs) (j : ℕ) : Obs := (obs[j]?).getD defaultObs

theorem obsAt_nil (j : ℕ) : obsAt [] j = defaultObs := by simp [obsAt]

theorem obsAt_cons_zero (o : Obs) (rest : List Obs) : obsAt (o :: rest) 0 = o := by
  simp [obsAt]

theorem obsAt_cons_succ (o : Obs) (rest : List Obs) (j : ℕ) :
    obsAt (o :: rest) (j + 1) = obsAt rest j := by simp [obsAt]

theorem obsAt_mem {obs : List Obs} {j : ℕ} (h : j < obs.length) :
    obsAt obs j ∈ obs := by
  have hg : obs[j]? = some obs[j] := List.getElem?_eq_getElem h
  rw [obsAt, hg]
  exact List.getElem_mem h

/-- On an invalid observation the pure step is the identity (the sample is
skipped). -/
theorem hourStepP_invalid_eq (off bw : Bool) (i : ℕ) (o : Obs) (st : SelSt)
    (h : obsValid o = false) : hourStepP off bw i o st = st := by
  cases hs : o.s <;> cases hg : o.g <;> cases hd : o.d <;>
    simp_all [obsValid, hourStepP]

/-- On a valid observation the pure step replaces the running best exactly
when the key of the observation is strictly greater in the lexicographic order. -/
theorem hourStepP_valid_eq (off bw : Bool) (i : ℕ) (o : Obs) (st : SelSt)
    (h : obsValid o = true) :
    hourStepP off bw i o st =
      if keyLt (stKey st) (obsKey off bw o) then mkCand off bw i o else st := by
  rcases hs : o.s with _ | s
  · simp [obsValid, hs] at h
  rcases hg : o.g with _ | g
  · simp [obsValid, hg] at h
  rcases hd : o.d with _ | d
  · simp [obsValid, hd] at h
  simp only [hourStepP, hs, hg, hd]
  have hiff : (statusOrd (compute_status s g off bw) > statusOrd st.status ∨
      (statusOrd (compute_status s g off bw) = statusOrd st.status ∧
        hourScore s g off bw > st.score)) ↔
      keyLt (stKey st) (obsKey off bw o) := by
    simp only [keyLt, stKey, obsKey, hs, hg, Option.getD_some, gt_iff_lt]
    omega
  rw [if_congr hiff rfl rfl]
  split_ifs <;> simp [mkCand, hs, hg]

theorem stKey_mkCand (off bw : Bool) (i : ℕ) (o : Obs) :
    stKey (mkCand off bw i o) = obsKey off bw o := rfl

/-- The running key never decreases across a step. -/
theorem hourStepP_keyLe (off bw : Bool) (i : ℕ) (o : Obs) (st : SelSt) :
    keyLe (stKey st) (stKey (hourStepP off bw i o st)) := by
  by_cases h : obsValid o
  · rw [hourStepP_valid_eq off bw i o st h]
    split_ifs with hk
    · rw [stKey_mkCand]
      exact Or.inl hk
    · exact Or.inr rfl
  · rw [hourStepP_invalid_eq off bw i o st (by simpa using h)]
    exact Or.inr rfl

/-- After a step on a valid observation, the running key dominates the key
of that observation. -/
theorem hourStepP_dominates (off bw : Bool) (i : ℕ) (o : Obs) (st : SelSt)
    (h : obsValid o = true) :
    keyLe (obsKey off bw o) (stKey (hourStepP off bw i o st)) := by
  rw [hourStepP_valid_eq off bw i o st h]
  split_ifs with hk
  · rw [stKey_mkCand]
    exact Or.inr rfl
  · exact keyLe_of_not_keyLt hk

theorem worstHourGoP_cons (off bw : Bool) (o : Obs) (rest : List Obs) (i : ℕ)
    (st : SelSt) :
    worstHourGoP off bw (o :: rest) i st =
      worstHourGoP off bw rest (i + 1) (hourStepP off bw i o st) := rfl

/-- The running key never decreases across the whole loop. -/
theorem worstHourGoP_keyLe (off bw : Bool) :
    ∀ (l : List Obs) (i : ℕ) (st : SelSt),
      keyLe (stKey st) (stKey (worstHourGoP off bw l i st))
  | [], _, _ => Or.inr rfl
  | o :: rest, i, st =>
    keyLe_trans (hourStepP_keyLe off bw i o st)
      (worstHourGoP_keyLe off bw rest (i + 1) (hourStepP off bw i o st))

/-- The final key dominates the key of every valid observation in the list. -/
theorem worstHourGoP_dominates (off bw : Bool) :
    ∀ (l : List Obs) (i : ℕ) (st : SelSt) (j : ℕ),
      obsValid (obsAt l j) = true →
      keyLe (obsKey off bw (obsAt l j)) (stKey (worstHourGoP off bw l i st))
  | [], _, _, j, h => by rw [obsAt_nil] at h; exact absurd h (by decide)
  | o :: rest, i, st, 0, h => by
    rw [obsAt_cons_zero] at h ⊢
    exact keyLe_trans (hourStepP_dominates off bw i o st h)
      (worstHourGoP_keyLe off bw rest (i + 1) (hourStepP off bw i o st))
  | o :: rest, i, st, j + 1, h => by
    rw [obsAt_cons_succ] at h ⊢
    rw [worstHourGoP_cons]
    exact worstHourGoP_dominates off bw rest (i + 1) (hourStepP off bw i o st) j h

/-- Representation of the loop result: either no observation ever replaced
the incoming state, or the result is the candidate of the first valid
observation achieving the maximal key, which strictly dominates the incoming
incoming key and the keys of all earlier valid observations. -/
theorem worstHourGoP_rep (off bw : Bool) :
    ∀ (l : List Obs) (i : ℕ) (st : SelSt),
      worstHourGoP off bw l i st = st ∨
        ∃ j, j < l.length ∧ obsValid (obsAt l j) = true ∧
          worstHourGoP off bw l i st = mkCand off bw (i + j) (obsAt l j) ∧
          keyLt (stKey st) (obsKey off bw (obsAt l j)) ∧
          ∀ k, k < j → obsValid (obsAt l k) = true →
            keyLt (obsKey off bw (obsAt l k)) (obsKey off bw (obsAt l j))
  | [], _, _ => Or.inl rfl
  | o :: rest, i, st => by
    rcases worstHourGoP_rep off bw rest (i + 1) (hourStepP off bw i o st) with
      heq | ⟨j, hj, hv, heq, hgt, hfirst⟩
    · by_cases hvo : obsValid o = true
      · by_cases hk : keyLt (stKey st) (obsKey off bw o)
        · right
          refine ⟨0, by simp, ?_, ?_, ?_, ?_⟩
          · rw [obsAt_cons_zero]
            exact hvo
          · rw [obsAt_cons_zero, Nat.add_zero, worstHourGoP_cons, heq,
              hourStepP_valid_eq off bw i o st hvo, if_pos hk]
          · rw [obsAt_cons_zero]
            exact hk
          · intro k hk0
            exact absurd hk0 (Nat.not_lt_zero k)
        · left
          have hstep : hourStepP off bw i o st = st := by
            rw [hourStepP_valid_eq off bw i o st hvo, if_neg hk]
          rw [worstHourGoP_cons, hstep]
          rw [hstep] at heq
          exact heq
      · left
        have hstep : hourStepP off bw i o st = st :=
          hourStepP_invalid_eq off bw i o st (by simpa using hvo)
        rw [worstHourGoP_cons, hstep]
        rw [hstep] at heq
        exact heq
    · right
      refine ⟨j + 1, by simpa using hj, ?_, ?_, ?_, ?_⟩
      · rw [obsAt_cons_succ]
        exact hv
      · rw [obsAt_cons_succ, worstHourGoP_cons, heq]
        have harith : i + 1 + j = i + (j + 1) := by omega
        rw [harith]
      · rw [obsAt_cons_succ]
        exact keyLe_keyLt_trans (hourStepP_keyLe off bw i o st) hgt
      · intro k hk hvk
        rw [obsAt_cons_succ]
        cases k with
        | zero =>
          rw [obsAt_cons_zero] at hvk ⊢
          exact keyLe_keyLt_trans (hourStepP_dominates off bw i o st hvk) hgt
        | succ k2 =>
          rw [obsAt_cons_succ] at hvk ⊢
          exact hfirst k2 (by omega) hvk

/-- Rounding a non-negative rational yields a non-negative integer. -/
theorem pyRound_nonneg {q : ℚ} (h : 0 ≤ q) : 0 ≤ pyRound q := by
  have hf : 0 ≤ ⌊q⌋ := Int.le_floor.mpr (by exact_mod_cast h)
  unfold pyRound
  dsimp only
  split_ifs <;> omega

/-- The worst-hour score is non-negative on non-negative wind inputs. -/
theorem hourScore_nonneg (s g : ℚ) (off bw : Bool) (hs : 0 ≤ s) (hg : 0 ≤ g) :
    0 ≤ hourScore s g off bw := by
  have h1 : (0:ℚ) ≤ max 0 (g - s) := le_max_left 0 (g - s)
  have hbase : 0 ≤ 4 * s + 2 * max 0 (g - s) := by linarith
  have hr := pyRound_nonneg hbase
  cases off <;> cases bw <;> simp [hourScore] <;> omega

/-- C3: worst-hour selection is an argmax over valid observations under the
lexicographic key (tier ordinal, then score): if some valid observation
exists (with non-negative winds), the loop returns the candidate state of a
valid index `j` whose key dominates the key of every valid observation, and
strictly dominates the key of every earlier valid observation (so the score
never overrides the tier, and an equal later candidate never replaces the
first one). -/
theorem C3_worst_hour_argmax (off bw : Bool) (obs : List Obs)
    (hpos : ∀ o ∈ obs, obsValid o = true → 0 ≤ o.s.getD 0 ∧ 0 ≤ o.g.getD 0)
    (hex : ∃ o ∈ obs, obsValid o = true) :
    ∃ j, j < obs.length ∧ obsValid (obsAt obs j) = true ∧
      select_worst_hour off bw obs = Except.ok (mkCand off bw j (obsAt obs j)) ∧
      (∀ k, obsValid (obsAt obs k) = true →
        keyLe (obsKey off bw (obsAt obs k)) (obsKey off bw (obsAt obs j))) ∧
      (∀ k, k < j → obsValid (obsAt obs k) = true →
        keyLt (obsKey off bw (obsAt obs k)) (obsKey off bw (obsAt obs j))) := by
  rcases worstHourGoP_rep off bw obs 0 selInit with heq | ⟨j, hj, hv, heq, hgt, hfirst⟩
  · exfalso
    obtain ⟨o, ho, hvo⟩ := hex
    obtain ⟨j0, hj0, hoeq⟩ := List.getElem_of_mem ho
    have hAt : obsAt obs j0 = o := by
      rw [obsAt, List.getElem?_eq_getElem hj0, Option.getD_some, hoeq]
    have hdom := worstHourGoP_dominates off bw obs 0 selInit j0
      (by rw [hAt]; exact hvo)
    rw [heq] at hdom
    have hsc : 0 ≤ (obsKey off bw (obsAt obs j0)).2 := by
      have hfield : (obsKey off bw (obsAt obs j0)).2 =
          hourScore ((obsAt obs j0).s.getD 0) ((obsAt obs j0).g.getD 0) off bw := rfl
      rw [hfield, hAt]
      exact hourScore_nonneg _ _ off bw (hpos o ho hvo).1 (hpos o ho hvo).2
    have hkey : stKey selInit = (0, -1) := rfl
    rw [hkey] at hdom
    rcases hdom with hlt | heq2
    · rcases hlt with h1 | ⟨h1, h2⟩
      · exact absurd h1 (Nat.not_lt_zero _)
      · simp at h2
        omega
    · rw [heq2] at hsc
      simp at hsc
  · refine ⟨j, hj, hv, ?_, ?_, hfirst⟩
    · rw [select_worst_hour_ok, heq, Nat.zero_add]
    · intro k hk
      have hdom := worstHourGoP_dominates off bw obs 0 selInit k hk
      rw [heq, stKey_mkCand] at hdom
      exact hdom

/-- C3 (witness): the example scenario of the spec, hours (8,12), (12,18), (6,9)
with no modifiers. -/
theorem C3_worst_hour_argmax_witness :
    ∃ j, j < ([⟨"08:00", some 8, some 12, some 0⟩,
        ⟨"09:00", some 12, some 18, some 0⟩,
        ⟨"10:00", some 6, some 9, some 0⟩] : List Obs).length ∧
      obsValid (obsAt [⟨"08:00", some 8, some 12, some 0⟩,
        ⟨"09:00", some 12, some 18, some 0⟩,
        ⟨"10:00", some 6, some 9, some 0⟩] j) = true ∧
      select_worst_hour false false
        [⟨"08:00", some 8, some 12, some 0⟩,
          ⟨"09:00", some 12, some 18, some 0⟩,
          ⟨"10:00", some 6, some 9, some 0⟩] =
        Except.ok (mkCand false false j
          (obsAt [⟨"08:00", some 8, some 12, some 0⟩,
            ⟨"09:00", some 12, some 18, some 0⟩,
            ⟨"10:00", some 6, some 9, some 0⟩] j)) ∧
      (∀ k, obsValid (obsAt [⟨"08:00", some 8, some 12, some 0⟩,
          ⟨"09:00", some 12, some 18, some 0⟩,
          ⟨"10:00", some 6, some 9, some 0⟩] k) = true →
        keyLe (obsKey false false (obsAt [⟨"08:00", some 8, some 12, some 0⟩,
            ⟨"09:00", some 12, some 18, some 0⟩,
            ⟨"10:00", some 6, some 9, some 0⟩] k))
          (obsKey false false (obsAt [⟨"08:00", some 8, some 12, some 0⟩,
            ⟨"09:00", some 12, some 18, some 0⟩,
            ⟨"10:00", some 6, some 9, some 0⟩] j))) ∧
      (∀ k, k < j → obsValid (obsAt [⟨"08:00", some 8, some 12, some 0⟩,
          ⟨"09:00", some 12, some 18, some 0⟩,
          ⟨"10:00", some 6, some 9, some 0⟩] k) = true →
        keyLt (obsKey false false (obsAt [⟨"08:00", some 8, some 12, some 0⟩,
            ⟨"09:00", some 12, some 18, some 0⟩,
            ⟨"10:00", some 6, some 9, some 0⟩] k))
          (obsKey false false (obsAt [⟨"08:00", some 8, some 12, some 0⟩,
            ⟨"09:00", some 12, some 18, some 0⟩,
            ⟨"10:00", some 6, some 9, some 0⟩] j))) :=
  C3_worst_hour_argmax false false _ (by decide) (by decide)

/-- With no valid observation the loop never replaces the initial state. -/
theorem worstHourGoP_all_invalid (off bw : Bool) :
    ∀ (l : List Obs), (∀ o ∈ l, obsValid o = false) →
      ∀ (i : ℕ) (st : SelSt), worstHourGoP off bw l i st = st
  | [], _, _, _ => rfl
  | o :: rest, h, i, st => by
    rw [worstHourGoP_cons, hourStepP_invalid_eq off bw i o st (h o (by simp))]
    exact worstHourGoP_all_invalid off bw rest
      (fun o2 ho2 => h o2 (by simp [ho2])) (i + 1) st

/-- C4: when every observation is invalid, worst-hour selection returns the
no-data sentinel: status GO, index 0, score -1, empty reason (never GO with
a populated reason). -/
theorem C4_all_invalid_sentinel (off bw : Bool) (obs : List Obs)
    (h : ∀ o ∈ obs, obsValid o = false) :
    select_worst_hour off bw obs = Except.ok selInit ∧
      selInit.status = "GO" ∧ selInit.reason = "" ∧ selInit.idx = 0 := by
  refine ⟨?_, rfl, rfl, rfl⟩
  rw [select_worst_hour_ok, worstHourGoP_all_invalid off bw obs h 0 selInit]

/-- C4 (witness): a sequence whose single observation has a NaN sustained
wind. -/
theorem C4_all_invalid_sentinel_witness :
    select_worst_hour false false [⟨"09:00", none, some 5, some 180⟩] =
        Except.ok selInit ∧
      selInit.status = "GO" ∧ selInit.reason = "" ∧ selInit.idx = 0 :=
  C4_all_invalid_sentinel false false _ (by decide)

/-
  Worst 3-hour window selection (`worst_3hr_window`, src/app.py 257-283).
  The `times[i]` / `times[i+2]` indexing is modelled in `Except String`
  (an out-of-range index would be a Python `IndexError`); slicing clamps
  like Python slices.
-/

/-- Result of `worst_3hr_window`: start/end timestamps, average score and
average sustained/gust over the window. -/
structure WWindow where
  start : String
  endt : String
  avg_score : ℚ
  sustained_avg : ℚ
  gust_avg : ℚ
  deriving Repr, DecidableEq

/-- The per-sample wind-only score used inside the window loop:
`4.0 * s + 2.0 * max(0.0, g - s)` (not rounded, no modifier bonuses). -/
def windScore (s g : ℚ) : ℚ := 4 * s + 2 * max 0 (g - s)

/-- A window qualifies iff none of its (up to 3) members is NaN. -/
def wwValid (sus gus : List (Option ℚ)) (i : ℕ) : Bool :=
  !(((sus.drop i).take 3).any Option.isNone ||
    ((gus.drop i).take 3).any Option.isNone)

/-- The per-sample scores of window `i`. -/
def windowScores (sus gus : List (Option ℚ)) (i : ℕ) : List ℚ :=
  (((sus.drop i).take 3).reduceOption.zip ((gus.drop i).take 3).reduceOption).map
    (fun p => 4 * p.1 + 2 * max 0 (p.2 - p.1))

/-- The average score of window `i` (sum of the member scores divided by 3,
as in the source). -/
def windowAvg (sus gus : List (Option ℚ)) (i : ℕ) : ℚ :=
  (windowScores sus gus i).sum / 3

/-- The candidate record built for window `i`. -/
def windowAt (times : List String) (sus gus : List (Option ℚ)) (i : ℕ) : WWindow :=
  ⟨(times[i]?).getD "", (times[i + 2]?).getD "", windowAvg sus gus i,
    ((sus.drop i).take 3).reduceOption.sum / 3,
    ((gus.drop i).take 3).reduceOption.sum / 3⟩

/-- One iteration of the window loop (`for i in range(n - 2)`). -/
def ww_step (times : List String) (sus gus : List (Option ℚ))
    (best : Option WWindow) (i : ℕ) : Except String (Option WWindow) :=
  let window_s := (sus.drop i).take 3
  let window_g := (gus.drop i).take 3
  if window_s.any Option.isNone || window_g.any Option.isNone then Except.ok best
  else
    let scores := (window_s.reduceOption.zip window_g.reduceOption).map
      (fun p => 4 * p.1 + 2 * max 0 (p.2 - p.1))
    let avg := scores.sum / 3
    match times[i]?, times[i + 2]? with
    | some t0, some t2 =>
      let cand : WWindow :=
        ⟨t0, t2, avg, window_s.reduceOption.sum / 3, window_g.reduceOption.sum / 3⟩
      match best with
      | none => Except.ok (some cand)
      | some b => if avg > b.avg_score then Except.ok (some cand) else Except.ok best
    | _, _ => Except.error "IndexError"

/-- The window loop: `k` remaining iterations starting at index `i`. -/
def ww_go (times : List String) (sus gus : List (Option ℚ)) :
    ℕ → ℕ → Option WWindow → Except String (Option WWindow)
  | _, 0, best => Except.ok best
  | i, Nat.succ k, best =>
    match ww_step times sus gus best i with
    | Except.ok b2 => ww_go times sus gus (i + 1) k b2
    | Except.error e => Except.error e

/-- Embedding of `worst_3hr_window` (src/app.py lines 257-283). -/
def worst_3hr_window (times : List String) (sustained_mph gusts_mph : List (Option ℚ)) :
    Except String (Option WWindow) :=
  let n := min times.length (min sustained_mph.length gusts_mph.length)
  if n < 3 then Except.ok none
  else ww_go times sustained_mph gusts_mph 0 (n - 2) none

/-- Pure model of one window-loop iteration. -/
def wwStepP (times : List String) (sus gus : List (Option ℚ))
    (best : Option WWindow) (i : ℕ) : Option WWindow :=
  if wwValid sus gus i then
    match best with
    | none => some (windowAt times sus gus i)
    | some b =>
      if windowAvg sus gus i > b.avg_score then some (windowAt times sus gus i)
      else best
  else best

/-- Pure model of the window loop. -/
def wwGoP (times : List String) (sus gus : List (Option ℚ)) :
    ℕ → ℕ → Option WWindow → Option WWindow
  | _, 0, best => best
  | i, Nat.succ k, best => wwGoP times sus gus (i + 1) k (wwStepP times sus gus best i)

/-- Pure model of `worst_3hr_window`. -/
def worst3hrP (times : List String) (sus gus : List (Option ℚ)) : Option WWindow :=
  let n := min times.length (min sus.length gus.length)
  if n < 3 then none
  else wwGoP times sus gus 0 (n - 2) none

theorem wwGoP_succ (times : List String) (sus gus : List (Option ℚ)) (i k : ℕ)
    (best : Option WWindow) :
    wwGoP times sus gus i (k + 1) best =
      wwGoP times sus gus (i + 1) k (wwStepP times sus gus best i) := rfl

/-- A window-loop step never raises when `i + 2` is in range of `times`,
and agrees with the pure step. -/
theorem ww_step_ok (times : List String) (sus gus : List (Option ℚ))
    (best : Option WWindow) (i : ℕ) (h : i + 2 < times.length) :
    ww_step times sus gus best i = Except.ok (wwStepP times sus gus best i) := by
  have h0 : i < times.length := by omega
  have ht0 : times[i]? = some times[i] := List.getElem?_eq_getElem h0
  have ht2 : times[i + 2]? = some times[i + 2] := List.getElem?_eq_getElem h
  cases hval : (((sus.drop i).take 3).any Option.isNone ||
      ((gus.drop i).take 3).any Option.isNone) with
  | true =>
    have hv2 : wwValid sus gus i = false := by simp [wwValid, hval]
    simp [ww_step, hval, wwStepP, hv2]
  | false =>
    have hv2 : wwValid sus gus i = true := by simp [wwValid, hval]
    have havg : ((((sus.drop i).take 3).reduceOption.zip
        ((gus.drop i).take 3).reduceOption).map
        (fun p => 4 * p.1 + 2 * max 0 (p.2 - p.1))).sum / 3 =
        windowAvg sus gus i := rfl
    have hwat : windowAt times sus gus i =
        ⟨times[i], times[i + 2], windowAvg sus gus i,
          ((sus.drop i).take 3).reduceOption.sum / 3,
          ((gus.drop i).take 3).reduceOption.sum / 3⟩ := by
      simp [windowAt, ht0, ht2]
    simp only [ww_step, hval, Bool.false_eq_true, if_false, ht0, ht2,
      wwStepP, hv2, if_true, havg, hwat]
    cases best with
    | none => rfl
    | some b =>
      dsimp only
      split_ifs <;> rfl

/-- The window loop never raises while every visited index keeps `times`
in range. -/
theorem ww_go_ok (times : List String) (sus gus : List (Option ℚ)) :
    ∀ (k i : ℕ) (best : Option WWindow), i + k + 1 < times.length →
      ww_go times sus gus i k best = Except.ok (wwGoP times sus gus i k best)
  | 0, _, _, _ => rfl
  | k + 1, i, best, h => by
    have hstep := ww_step_ok times sus gus best i (by omega)
    rw [ww_go, hstep, wwGoP_succ]
    exact ww_go_ok times sus gus k (i + 1) (wwStepP times sus gus best i) (by omega)

/-- The window selector never raises: it equals the pure model in `ok`. -/
theorem worst_3hr_window_eq (times : List String) (sus gus : List (Option ℚ)) :
    worst_3hr_window times sus gus = Except.ok (worst3hrP times sus gus) := by
  unfold worst_3hr_window worst3hrP
  by_cases h : min times.length (min sus.length gus.length) < 3
  · simp [h]
  · have h1 : min times.length (min sus.length gus.length) ≤ times.length :=
      min_le_left _ _
    simp only [h, if_false]
    exact ww_go_ok times sus gus _ 0 none (by omega)

/-- A step on a disqualified window keeps the running best. -/
theorem wwStepP_invalid_eq (times : List String) (sus gus : List (Option ℚ))
    (best : Option WWindow) (i : ℕ) (h : wwValid sus gus i = false) :
    wwStepP times sus gus best i = best := by
  simp [wwStepP, h]

/-- The running best average never decreases across a step. -/
theorem wwStepP_mono (times : List String) (sus gus : List (Option ℚ))
    (best : Option WWindow) (i : ℕ) (b : WWindow) (hb : best = some b) :
    ∃ w, wwStepP times sus gus best i = some w ∧ b.avg_score ≤ w.avg_score := by
  subst hb
  cases hv : wwValid sus gus i with
  | false => exact ⟨b, by simp [wwStepP, hv], le_refl _⟩
  | true =>
    by_cases hc : windowAvg sus gus i > b.avg_score
    · exact ⟨windowAt times sus gus i, by simp [wwStepP, hv, hc], le_of_lt hc⟩
    · exact ⟨b, by simp [wwStepP, hv, hc], le_refl _⟩

/-- After a step on a qualifying window, the running best dominates that
window average. -/
theorem wwStepP_dominates (times : List String) (sus gus : List (Option ℚ))
    (best : Option WWindow) (i : ℕ) (h : wwValid sus gus i = true) :
    ∃ w, wwStepP times sus gus best i = some w ∧ windowAvg sus gus i ≤ w.avg_score := by
  cases best with
  | none => exact ⟨windowAt times sus gus i, by simp [wwStepP, h], le_refl _⟩
  | some b =>
    by_cases hc : windowAvg sus gus i > b.avg_score
    · exact ⟨windowAt times sus gus i, by simp [wwStepP, h, hc], le_refl _⟩
    · exact ⟨b, by simp [wwStepP, h, hc], le_of_not_lt hc⟩

/-- The running best average never decreases across the loop. -/
theorem wwGoP_mono (times : List String) (sus gus : List (Option ℚ)) :
    ∀ (k i : ℕ) (best : Option WWindow) (b : WWindow), best = some b →
      ∃ w, wwGoP times sus gus i k best = some w ∧ b.avg_score ≤ w.avg_score
  | 0, _, _, b, hb => ⟨b, by rw [hb]; rfl, le_refl _⟩
  | k + 1, i, best, b, hb => by
    obtain ⟨w1, hw1, h1⟩ := wwStepP_mono times sus gus best i b hb
    obtain ⟨w2, hw2, h2⟩ :=
      wwGoP_mono times sus gus k (i + 1) (wwStepP times sus gus best i) w1 hw1
    exact ⟨w2, by rw [wwGoP_succ, hw2], le_trans h1 h2⟩

/-- The final best dominates every qualifying window visited by the loop. -/
theorem wwGoP_dominates (times : List String) (sus gus : List (Option ℚ)) :
    ∀ (k i : ℕ) (best : Option WWindow) (j : ℕ), j < k →
      wwValid sus gus (i + j) = true →
      ∃ w, wwGoP times sus gus i k best = some w ∧
        windowAvg sus gus (i + j) ≤ w.avg_score
  | 0, _, _, j, hj, _ => absurd hj (Nat.not_lt_zero j)
  | k + 1, i, best, 0, _, hv => by
    rw [Nat.add_zero] at hv
    obtain ⟨w1, hw1, h1⟩ := wwStepP_dominates times sus gus best i hv
    obtain ⟨w2, hw2, h2⟩ :=
      wwGoP_mono times sus gus k (i + 1) (wwStepP times sus gus best i) w1 hw1
    refine ⟨w2, ?_, ?_⟩
    · rw [wwGoP_succ, hw2]
    · rw [Nat.add_zero]
      exact le_trans h1 h2
  | k + 1, i, best, j + 1, hj, hv => by
    have harith : i + (j + 1) = (i + 1) + j := by omega
    rw [harith] at hv
    obtain ⟨w, hw, hle⟩ := wwGoP_dominates times sus gus k (i + 1)
      (wwStepP times sus gus best i) j (by omega) hv
    refine ⟨w, ?_, ?_⟩
    · rw [wwGoP_succ, hw]
    · rw [harith]
      exact hle

/-- Representation of the window-loop result: either nothing replaced the
incoming best, or the result is the first qualifying window achieving the
maximal average, strictly above the incoming best and all earlier
qualifying windows. -/
theorem wwGoP_rep (times : List String) (sus gus : List (Option ℚ)) :
    ∀ (k i : ℕ) (best : Option WWindow),
      wwGoP times sus gus i k best = best ∨
        ∃ j, j < k ∧ wwValid sus gus (i + j) = true ∧
          wwGoP times sus gus i k best = some (windowAt times sus gus (i + j)) ∧
          (∀ b, best = some b → b.avg_score < windowAvg sus gus (i + j)) ∧
          ∀ m, m < j → wwValid sus gus (i + m) = true →
            windowAvg sus gus (i + m) < windowAvg sus gus (i + j)
  | 0, _, _ => Or.inl rfl
  | k + 1, i, best => by
    rcases wwGoP_rep times sus gus k (i + 1) (wwStepP times sus gus best i) with
      heq | ⟨j, hj, hv, heq, hgtb, hfirst⟩
    · cases hvi : wwValid sus gus i with
      | false =>
        left
        have hstep := wwStepP_invalid_eq times sus gus best i hvi
        rw [wwGoP_succ, hstep]
        rw [hstep] at heq
        exact heq
      | true =>
        cases best with
        | none =>
          right
          have hstep : wwStepP times sus gus none i =
              some (windowAt times sus gus i) := by simp [wwStepP, hvi]
          refine ⟨0, by omega, ?_, ?_, ?_, ?_⟩
          · rw [Nat.add_zero]
            exact hvi
          · rw [wwGoP_succ, heq, hstep, Nat.add_zero]
          · intro b hb
            exact absurd hb (by simp)
          · intro m hm
            exact absurd hm (Nat.not_lt_zero m)
        | some b =>
          by_cases hc : windowAvg sus gus i > b.avg_score
          · right
            have hstep : wwStepP times sus gus (some b) i =
                some (windowAt times sus gus i) := by simp [wwStepP, hvi, hc]
            refine ⟨0, by omega, ?_, ?_, ?_, ?_⟩
            · rw [Nat.add_zero]
              exact hvi
            · rw [wwGoP_succ, heq, hstep, Nat.add_zero]
            · intro b2 hb2
              rw [Nat.add_zero]
              have hbb := Option.some.inj hb2
              rw [← hbb]
              exact hc
            · intro m hm
              exact absurd hm (Nat.not_lt_zero m)
          · left
            have hstep : wwStepP times sus gus (some b) i = some b := by
              simp [wwStepP, hvi, hc]
            rw [wwGoP_succ, hstep]
            rw [hstep] at heq
            exact heq
    · right
      have harith : (i + 1) + j = i + (j + 1) := by omega
      refine ⟨j + 1, by omega, ?_, ?_, ?_, ?_⟩
      · rw [← harith]
        exact hv
      · rw [wwGoP_succ, heq, harith]
      · intro b hb
        rw [← harith]
        obtain ⟨w1, hw1, h1⟩ := wwStepP_mono times sus gus best i b hb
        exact lt_of_le_of_lt h1 (hgtb w1 hw1)
      · intro m hm hvm
        cases m with
        | zero =>
          rw [Nat.add_zero] at hvm ⊢
          rw [← harith]
          obtain ⟨w1, hw1, h1⟩ := wwStepP_dominates times sus gus best i hvm
          exact lt_of_le_of_lt h1 (hgtb w1 hw1)
        | succ m2 =>
          have harith2 : i + (m2 + 1) = (i + 1) + m2 := by omega
          rw [harith2] at hvm ⊢
          rw [← harith]
          exact hfirst m2 (by omega) hvm

/-- When no visited window qualifies, the loop keeps the incoming best. -/
theorem wwGoP_all_invalid (times : List String) (sus gus : List (Option ℚ)) :
    ∀ (k i : ℕ) (best : Option WWindow),
      (∀ j, j < k → wwValid sus gus (i + j) = false) →
      wwGoP times sus gus i k best = best
  | 0, _, _, _ => rfl
  | k + 1, i, best, h => by
    have h0 := h 0 (by omega)
    rw [Nat.add_zero] at h0
    rw [wwGoP_succ, wwStepP_invalid_eq times sus gus best i h0]
    exact wwGoP_all_invalid times sus gus k (i + 1) best (fun j hj => by
      have hsh := h (j + 1) (by omega)
      rwa [show i + (j + 1) = (i + 1) + j by omega] at hsh)

/-- Evaluation of `worst_3hr_window` on exactly three valid samples: one qualifying
window, whose fields are the averages of the three samples. -/
theorem worst3hr_three (t0 t1 t2 : String) (s0 s1 s2 g0 g1 g2 : ℚ) :
    worst_3hr_window [t0, t1, t2] [some s0, some s1, some s2]
        [some g0, some g1, some g2] =
      Except.ok (some ⟨t0, t2,
        (windScore s0 g0 + windScore s1 g1 + windScore s2 g2) / 3,
        (s0 + s1 + s2) / 3, (g0 + g1 + g2) / 3⟩) := by
  rw [worst_3hr_window_eq]
  congr 1
  unfold worst3hrP
  norm_num
  rw [show (1 : ℕ) = 0 + 1 from rfl, wwGoP_succ]
  have hv : wwValid [some s0, some s1, some s2] [some g0, some g1, some g2] 0 = true := by
    simp [wwValid]
  have hstep : wwStepP [t0, t1, t2] [some s0, some s1, some s2]
      [some g0, some g1, some g2] none 0 =
      some (windowAt [t0, t1, t2] [some s0, some s1, some s2]
        [some g0, some g1, some g2] 0) := by
    simp [wwStepP, hv]
  rw [hstep]
  show wwGoP _ _ _ 1 0 _ = _
  rw [show wwGoP [t0, t1, t2] [some s0, some s1, some s2] [some g0, some g1, some g2] 1 0
      (some (windowAt [t0, t1, t2] [some s0, some s1, some s2] [some g0, some g1, some g2] 0)) =
      some (windowAt [t0, t1, t2] [some s0, some s1, some s2] [some g0, some g1, some g2] 0)
    from rfl]
  simp only [windowAt, windowAvg, windowScores, windScore,
    List.reduceOption_cons_of_some, List.reduceOption_nil]
  norm_num
  refine ⟨by ring, by ring, by ring⟩

/-- C5 (counterexample): the claim says each window averages the per-sample
RiskScore, which the spec defines as the rounded integer
round(4*s + 2*max(0, g-s)); on three samples with sustained 0.1 and gust 0
the code averages the unrounded per-sample values (2/5), not the rounded
per-sample RiskScores (each 0, mean 0). -/
theorem C5_rounded_score_counterexample :
    ∃ w, worst_3hr_window ["t0", "t1", "t2"]
        [some (1/10), some (1/10), some (1/10)] [some 0, some 0, some 0] =
        Except.ok (some w) ∧
      w.avg_score ≠ (((hourScore (1/10) 0 false false +
        hourScore (1/10) 0 false false +
        hourScore (1/10) 0 false false : ℤ) : ℚ) / 3) := by
  refine ⟨_, worst3hr_three "t0" "t1" "t2" (1/10) (1/10) (1/10) 0 0 0, ?_⟩
  have hmax : max (0:ℚ) (0 - 1/10) = 0 :=
    max_eq_left (by norm_num)
  have hws : windScore (1/10) 0 = 2/5 := by
    rw [windScore, hmax]
    norm_num
  have hhs : hourScore (1/10) 0 false false = 0 := by
    have harg : 4 * (1/10 : ℚ) + 2 * max 0 (0 - 1/10) = 2/5 := by
      rw [hmax]
      norm_num
    have hfl : ⌊(2/5 : ℚ)⌋ = 0 := by
      rw [Int.floor_eq_iff]
      norm_num
    simp only [hourScore, if_false, Bool.false_eq_true]
    rw [harg, pyRound, hfl]
    norm_num
  show (windScore (1/10) 0 + windScore (1/10) 0 + windScore (1/10) 0) / 3 ≠ _
  rw [hws, hhs]
  norm_num

/-- C5 (amended): `worst_3hr_window` averages the UNROUNDED per-sample
wind-only score `4*s + 2*max(0, g-s)` (no integer rounding, no modifier
bonuses) over each qualifying window and returns the window with the
highest average (first occurrence wins ties); on exactly 3 valid samples it
returns the window whose average equals the mean of the three per-sample
unrounded scores, with start/end equal to the first/last timestamps. -/
theorem C5_worst_window_selection :
    (∀ (times : List String) (sus gus : List (Option ℚ)) (w : WWindow),
      worst_3hr_window times sus gus = Except.ok (some w) →
      ∃ i, i + 2 < min times.length (min sus.length gus.length) ∧
        wwValid sus gus i = true ∧ w = windowAt times sus gus i ∧
        (∀ j, j + 2 < min times.length (min sus.length gus.length) →
          wwValid sus gus j = true → windowAvg sus gus j ≤ windowAvg sus gus i) ∧
        (∀ j, j < i → wwValid sus gus j = true →
          windowAvg sus gus j < windowAvg sus gus i)) ∧
    (∀ (t0 t1 t2 : String) (s0 s1 s2 g0 g1 g2 : ℚ),
      worst_3hr_window [t0, t1, t2] [some s0, some s1, some s2]
          [some g0, some g1, some g2] =
        Except.ok (some ⟨t0, t2,
          (windScore s0 g0 + windScore s1 g1 + windScore s2 g2) / 3,
          (s0 + s1 + s2) / 3, (g0 + g1 + g2) / 3⟩)) := by
  constructor
  · intro times sus gus w hok
    rw [worst_3hr_window_eq] at hok
    have hok2 : worst3hrP times sus gus = some w := Except.ok.inj hok
    unfold worst3hrP at hok2
    by_cases hn : min times.length (min sus.length gus.length) < 3
    · rw [if_pos hn] at hok2
      exact absurd hok2 (by simp)
    · rw [if_neg hn] at hok2
      rcases wwGoP_rep times sus gus
          (min times.length (min sus.length gus.length) - 2) 0 none with
        heq | ⟨j, hj, hv, heq, _, hfirst⟩
      · rw [heq] at hok2
        exact absurd hok2 (by simp)
      · rw [Nat.zero_add] at hv heq
        refine ⟨j, by omega, hv, ?_, ?_, ?_⟩
        · rw [heq] at hok2
          exact (Option.some.inj hok2).symm
        · intro j2 hj2 hv2
          obtain ⟨w2, hw2, hle⟩ := wwGoP_dominates times sus gus
            (min times.length (min sus.length gus.length) - 2) 0 none j2
            (by omega) (by rw [Nat.zero_add]; exact hv2)
          rw [heq] at hw2
          rw [Nat.zero_add] at hle
          have hw3 : w2 = windowAt times sus gus j := (Option.some.inj hw2).symm
          rw [hw3] at hle
          exact hle
        · intro j2 hj2 hv2
          have hlt := hfirst j2 hj2 (by rw [Nat.zero_add]; exact hv2)
          rw [Nat.zero_add, Nat.zero_add] at hlt
          exact hlt
  · intro t0 t1 t2 s0 s1 s2 g0 g1 g2
    exact worst3hr_three t0 t1 t2 s0 s1 s2 g0 g1 g2

/-- C5 (witness): the amended statement applied to three valid samples. -/
theorem C5_worst_window_selection_witness :
    ∃ i, i + 2 < min (["a", "b", "c"] : List String).length
        (min ([some 1, some 2, some 3] : List (Option ℚ)).length
          ([some 2, some 3, some 4] : List (Option ℚ)).length) ∧
      wwValid [some 1, some 2, some 3] [some 2, some 3, some 4] i = true ∧
      (⟨"a", "c", (windScore 1 2 + windScore 2 3 + windScore 3 4) / 3,
        ((1 : ℚ) + 2 + 3) / 3, ((2 : ℚ) + 3 + 4) / 3⟩ : WWindow) =
        windowAt ["a", "b", "c"] [some 1, some 2, some 3] [some 2, some 3, some 4] i ∧
      (∀ j, j + 2 < min (["a", "b", "c"] : List String).length
          (min ([some 1, some 2, some 3] : List (Option ℚ)).length
            ([some 2, some 3, some 4] : List (Option ℚ)).length) →
        wwValid [some 1, some 2, some 3] [some 2, some 3, some 4] j = true →
        windowAvg [some 1, some 2, some 3] [some 2, some 3, some 4] j ≤
          windowAvg [some 1, some 2, some 3] [some 2, some 3, some 4] i) ∧
      (∀ j, j < i → wwValid [some 1, some 2, some 3] [some 2, some 3, some 4] j = true →
        windowAvg [some 1, some 2, some 3] [some 2, some 3, some 4] j <
          windowAvg [some 1, some 2, some 3] [some 2, some 3, some 4] i) :=
  C5_worst_window_selection.1 ["a", "b", "c"] [some 1, some 2, some 3]
    [some 2, some 3, some 4] _
    (C5_worst_window_selection.2 "a" "b" "c" 1 2 3 2 3 4)

/-- C6: `worst_3hr_window` returns `ok none` (no result, not an error)
whenever no 3 contiguous valid samples exist among the first
`min(len(times), len(sustained), len(gusts))` positions: every window
containing an invalid sample is disqualified entirely, with no partial
averaging. -/
theorem C6_no_contiguous_valid_window (times : List String)
    (sus gus : List (Option ℚ))
    (h : ∀ i, i < min times.length (min sus.length gus.length) →
      i + 2 < min times.length (min sus.length gus.length) →
      wwValid sus gus i = false) :
    worst_3hr_window times sus gus = Except.ok none := by
  rw [worst_3hr_window_eq]
  congr 1
  unfold worst3hrP
  by_cases hn : min times.length (min sus.length gus.length) < 3
  · rw [if_pos hn]
  · rw [if_neg hn]
    exact wwGoP_all_invalid times sus gus _ 0 none (fun j hj => by
      rw [Nat.zero_add]
      exact h j (by omega) (by omega))

/-- C6 (witness): eight samples, six of them valid, but every 3-hour window
touches a NaN sustained value, so no window qualifies. -/
theorem C6_no_contiguous_valid_window_witness :
    worst_3hr_window ["h0", "h1", "h2", "h3", "h4", "h5", "h6", "h7"]
        [some 1, some 2, none, some 3, some 4, none, some 5, some 6]
        [some 1, some 2, some 3, some 4, some 5, some 6, some 7, some 8] =
      Except.ok none :=
  C6_no_contiguous_valid_window _ _ _ (by decide)

/-- C9: no exceptions and no unreachable-branch failures in the core: the
`rank_map` lookup on any classifier result always succeeds (the `KeyError`
branch is unreachable), worst-hour selection always returns `ok`, and
`worst_3hr_window` always returns `ok` (the `IndexError` branch is
unreachable); all three are pure functions of their inputs. -/
theorem C9_no_exceptions :
    (∀ (s g : ℚ) (o b : Bool), (rank_map (compute_status s g o b)).isSome = true) ∧
      (∀ (off bw : Bool) (obs : List Obs),
        ∃ r, select_worst_hour off bw obs = Except.ok r) ∧
      (∀ (times : List String) (sus gus : List (Option ℚ)),
        ∃ w, worst_3hr_window times sus gus = Except.ok w) := by
  refine ⟨?_, ?_, ?_⟩
  · intro s g o b
    rw [rank_map_compute_status]
    rfl
  · intro off bw obs
    exact ⟨_, select_worst_hour_ok off bw obs⟩
  · intro times sus gus
    exact ⟨_, worst_3hr_window_eq times sus gus⟩

end KayakAdvisor
